import Mathlib

/-!
# librepsheet: reputation store and evidence ledger

A shallow embedding of `src/librepsheet.c`.  Every library function is a thin
wrapper around `redisCommand`, so the embedding has two layers:

* the key-value backend reached through the connection (`Store`, `Command`,
  `Reply`, `redisCommand`): typed values under string keys, one optional
  time-to-live per key, and the documented behaviour of the handful of
  commands the library issues;
* the library functions themselves, each one the sequence of commands the C
  function sends, with the replies it ignores dropped.

A `char *` argument is represented by the text it points to, an `int` by an
integer.  Strings held by the backend are binary safe, so a stored value may
contain the byte 0; `cstr` gives the part of such a buffer that C string
functions see.  The connection is up: every command gets a reply.  No time
passes between the commands of one function and the observation that follows
it, so a time-to-live is read back as it was set.
-/

namespace Repsheet

/-! ## The backend -/

/-- A sorted-set score: a double-precision number of the backend (IEEE 754
binary64) other than NaN, which the backend never stores.  A finite score is
held by its exact value: `int n` is the integer `n`, `frac m k` is `m / 2^k`
with `m` odd and `k ≥ 1`; the sign of zero is not kept. -/
inductive Score where
  | int (n : Int)
  | frac (m : Int) (k : Nat)
  | inf (negative : Bool)
deriving DecidableEq

/-- The number of bits by which `n` exceeds the 53 bits of a double: the
least `s` with `n / 2^s < 2^53` (the first argument bounds the search). -/
def excess_bits : Nat → Nat → Nat
  | 0, _ => 0
  | fuel + 1, n => if n < 2 ^ 53 then 0 else excess_bits fuel (n / 2) + 1

/-- The score with the value `m / 2^k`. -/
def of_dyadic : Int → Nat → Score
  | m, 0 => .int m
  | m, k + 1 => if m % 2 = 0 then of_dyadic (m / 2) k else .frac m (k + 1)

/-- The bound of the finite doubles, 2^1024. -/
def double_bound : Nat :=
  179769313486231590772930519078902473361797697894230657273430081157732675805500963132708477322407536021120113879871393357658789768814416622492847430639474124377767893424865485276302219601246094119453082952085005768838150682342462881473913110540827237163350510684586298239947245938479716304835356329624224137216

/-- The double nearest to the exact value `m * 2^e`, ties to the even
significand: the low bits beyond the 53 bits of precision and below the least
exponent -1074 are rounded away, and a result of magnitude 2^1024 or more is
an infinity. -/
def round_double (m e : Int) : Score :=
  let n := m.natAbs
  let shift := max (excess_bits n n) (-1074 - e).toNat
  let q := n / 2 ^ shift
  let r := n % 2 ^ shift
  let q := if 2 * r > 2 ^ shift ∨ (2 * r = 2 ^ shift ∧ q % 2 = 1) then q + 1 else q
  let e := e + shift
  if q * 2 ^ e.toNat ≥ double_bound * 2 ^ (-e).toNat then .inf (decide (m < 0))
  else if e ≥ 0 then .int (m.sign * q * 2 ^ e.toNat)
  else of_dyadic (m.sign * q) (-e).toNat

/-- A finite score as `(m, e)` with the value `m * 2^e`; `none` for an
infinity. -/
def Score.dyadic : Score → Option (Int × Int)
  | .int n => some (n, 0)
  | .frac m k => some (m, -(k : Int))
  | .inf _ => none

/-- The sum of two doubles: the exact sum of two finite scores, rounded; an
infinity absorbs a finite score; infinities of opposite sign have no sum
(NaN). -/
def Score.add (x y : Score) : Option Score :=
  match x.dyadic, y.dyadic with
  | some (m₁, e₁), some (m₂, e₂) =>
      some (round_double (m₁ * 2 ^ (e₁ - min e₁ e₂).toNat + m₂ * 2 ^ (e₂ - min e₁ e₂).toNat)
        (min e₁ e₂))
  | none, some _ => some x
  | some _, none => some y
  | none, none => if x = y then some x else none

/-- The text of a score in a reply: the decimal digits of an integer score
(as the backend prints them below 10^17) and `inf` or `-inf`; for the other
scores a text that only names the score.  The library reads no reply that
holds a score. -/
def Score.text : Score → String
  | .int n => toString n
  | .frac m k => toString m ++ "/2^" ++ toString k
  | .inf false => "inf"
  | .inf true => "-inf"

/-- Value held under one key of the backend.  A set is the list of its
members, a sorted set the list of its members with their scores. -/
inductive Value where
  | str (s : String)
  | list (l : List String)
  | set (m : List String)
  | zset (z : List (String × Score))
deriving DecidableEq

/-- One key of the backend: its value and its remaining time-to-live in
seconds (`none`: the key does not expire). -/
structure Entry where
  val : Value
  ttl : Option Int
deriving DecidableEq

/-- State of the backend behind a connection: the entry under each key. -/
abbrev Store := String → Option Entry

/-- The store without any key (the state after `flushdb`). -/
def Store.empty : Store := fun _ => none

/-- Writes an entry under a key. -/
def Store.put (ctx : Store) (key : String) (e : Entry) : Store :=
  fun k => if k = key then some e else ctx k

/-- Removes a key. -/
def Store.del (ctx : Store) (key : String) : Store :=
  fun k => if k = key then none else ctx k

/-- Replies of the backend, as hiredis hands them over (`redisReply`). -/
inductive Reply where
  | nil
  | status (s : String)
  | error (s : String)
  | string (s : String)
  | integer (n : Int)
deriving DecidableEq

/-- The field `reply->str`: set for status, error and string replies, NULL
otherwise. -/
def Reply.str : Reply → Option String
  | .status s => some s
  | .error s => some s
  | .string s => some s
  | .nil => none
  | .integer _ => none

/-- The commands the library and its tests send. -/
inductive Command where
  | SET (key value : String)
  | GET (key : String)
  | SETEX (key : String) (seconds : Int) (value : String)
  | SADD (key member : String)
  | SISMEMBER (key member : String)
  | ZINCRBY (key : String) (increment : Int) (member : String)
  | LPUSH (key value : String)
  | LTRIM (key : String) (start stop : Int)
  | EXPIRE (key : String) (seconds : Int)
  | TTL (key : String)

/-- Reply to a command sent to a key that holds a value of another type. -/
def wrongtype : Reply :=
  .error "WRONGTYPE Operation against a key holding the wrong kind of value"

/-- Score of a member of a sorted set. -/
def zset_score : List (String × Score) → String → Option Score
  | [], _ => none
  | (m, s) :: z, member => if m = member then some s else zset_score z member

/-- Sets the score of a member of a sorted set, adding the member when it is
new. -/
def zset_put : List (String × Score) → String → Score → List (String × Score)
  | [], member, score => [(member, score)]
  | (m, s) :: z, member, score =>
      if m = member then (m, score) :: z else (m, s) :: zset_put z member score

/-- The elements `LTRIM start stop` keeps: indices are zero based and
inclusive, a negative index counts from the end of the list, and an empty or
out-of-range interval keeps nothing. -/
def ltrim_range (l : List String) (start stop : Int) : List String :=
  let llen : Int := l.length
  let start := if start < 0 then llen + start else start
  let stop := if stop < 0 then llen + stop else stop
  let start := if start < 0 then 0 else start
  if start > stop ∨ start ≥ llen then []
  else
    let stop := if stop ≥ llen then llen - 1 else stop
    (l.drop start.toNat).take (stop - start + 1).toNat

/-- One command against the backend: the new state and the reply.  `SET` and
`SETEX` replace a value of any type, `SET` without and `SETEX` with a
time-to-live; the commands on sets, sorted sets and lists create an absent
key, keep the time-to-live of a present one and answer with an error, changing
nothing, on a key of another type; `ZINCRBY` reads the increment as a double
and adds it in double precision to the score of the member (0 for a new
member); `LTRIM` removes a list it empties; `EXPIRE` sets the time-to-live of
a present key of any type. -/
def redisCommand (ctx : Store) : Command → Store × Reply
  | .SET key value => (ctx.put key ⟨.str value, none⟩, .status "OK")
  | .GET key =>
      match ctx key with
      | none => (ctx, .nil)
      | some ⟨.str v, _⟩ => (ctx, .string v)
      | some _ => (ctx, wrongtype)
  | .SETEX key seconds value =>
      if seconds ≤ 0 then (ctx, .error "ERR invalid expire time in setex")
      else (ctx.put key ⟨.str value, some seconds⟩, .status "OK")
  | .SADD key member =>
      match ctx key with
      | none => (ctx.put key ⟨.set [member], none⟩, .integer 1)
      | some ⟨.set m, ttl⟩ =>
          if member ∈ m then (ctx, .integer 0)
          else (ctx.put key ⟨.set (member :: m), ttl⟩, .integer 1)
      | some _ => (ctx, wrongtype)
  | .SISMEMBER key member =>
      match ctx key with
      | none => (ctx, .integer 0)
      | some ⟨.set m, _⟩ => (ctx, .integer (if member ∈ m then 1 else 0))
      | some _ => (ctx, wrongtype)
  | .ZINCRBY key increment member =>
      match ctx key with
      | none =>
          (ctx.put key ⟨.zset [(member, round_double increment 0)], none⟩,
            .string (round_double increment 0).text)
      | some ⟨.zset z, ttl⟩ =>
          match Score.add ((zset_score z member).getD (.int 0)) (round_double increment 0) with
          | none => (ctx, .error "ERR resulting score is not a number (NaN)")
          | some score =>
              (ctx.put key ⟨.zset (zset_put z member score), ttl⟩, .string score.text)
      | some _ => (ctx, wrongtype)
  | .LPUSH key value =>
      match ctx key with
      | none => (ctx.put key ⟨.list [value], none⟩, .integer 1)
      | some ⟨.list l, ttl⟩ =>
          (ctx.put key ⟨.list (value :: l), ttl⟩, .integer ((value :: l).length))
      | some _ => (ctx, wrongtype)
  | .LTRIM key start stop =>
      match ctx key with
      | none => (ctx, .status "OK")
      | some ⟨.list l, ttl⟩ =>
          if ltrim_range l start stop = [] then (ctx.del key, .status "OK")
          else (ctx.put key ⟨.list (ltrim_range l start stop), ttl⟩, .status "OK")
      | some _ => (ctx, wrongtype)
  | .EXPIRE key seconds =>
      match ctx key with
      | none => (ctx, .integer 0)
      | some e =>
          if seconds ≤ 0 then (ctx.del key, .integer 1)
          else (ctx.put key ⟨e.val, some seconds⟩, .integer 1)
  | .TTL key =>
      match ctx key with
      | none => (ctx, .integer (-2))
      | some ⟨_, none⟩ => (ctx, .integer (-1))
      | some ⟨_, some t⟩ => (ctx, .integer t)

/-- The text a C string function reads from a buffer: the bytes before the
first byte 0. -/
def cstr (s : String) : List Char :=
  s.data.takeWhile (fun c => c ≠ Char.ofNat 0)

/-- The test `strcmp(a, b) == 0`. -/
def strcmp_eq (a b : String) : Bool :=
  cstr a = cstr b

/-! ## The library -/

/-- Source `mark_actor`: `SET %s:repsheet true`. -/
def mark_actor (context : Store) (actor : String) : Store :=
  (redisCommand context (.SET (actor ++ ":repsheet") "true")).1

/-- Source `blacklist_actor`: `SET %s:repsheet:blacklist true`. -/
def blacklist_actor (context : Store) (actor : String) : Store :=
  (redisCommand context (.SET (actor ++ ":repsheet:blacklist") "true")).1

/-- Source `whitelist_actor`: `SET %s:repsheet:whitelist true`. -/
def whitelist_actor (context : Store) (actor : String) : Store :=
  (redisCommand context (.SET (actor ++ ":repsheet:whitelist") "true")).1

/-- Source `is_on_repsheet`: TRUE when `reply->str` is set and `strcmp` finds
it equal to `true`.  The macros TRUE and FALSE are the booleans. -/
def is_on_repsheet (context : Store) (actor : String) : Bool :=
  let reply := (redisCommand context (.GET (actor ++ ":repsheet"))).2
  match reply.str with
  | some s => strcmp_eq s "true"
  | none => false

/-- Source `is_blacklisted`. -/
def is_blacklisted (context : Store) (actor : String) : Bool :=
  let reply := (redisCommand context (.GET (actor ++ ":repsheet:blacklist"))).2
  match reply.str with
  | some s => strcmp_eq s "true"
  | none => false

/-- Source `is_whitelisted`. -/
def is_whitelisted (context : Store) (actor : String) : Bool :=
  let reply := (redisCommand context (.GET (actor ++ ":repsheet:whitelist"))).2
  match reply.str with
  | some s => strcmp_eq s "true"
  | none => false

/-- Source `expire`: `EXPIRE %s:%s %d`. -/
def expire (context : Store) (actor label : String) (expiry : Int) : Store :=
  (redisCommand context (.EXPIRE (actor ++ ":" ++ label) expiry)).1

/-- Source `increment_rule_count`: `ZINCRBY %s:detected 1 %s`. -/
def increment_rule_count (context : Store) (actor rule : String) : Store :=
  (redisCommand context (.ZINCRBY (actor ++ ":detected") 1 rule)).1

/-- Source `blacklist_and_expire`: two `SETEX` and one `SADD`, replies
ignored. -/
def blacklist_and_expire (context : Store) (actor : String) (expiry : Int)
    (reason : String) : Store :=
  let context := (redisCommand context (.SETEX (actor ++ ":repsheet:blacklist") expiry "true")).1
  let context :=
    (redisCommand context (.SETEX (actor ++ ":repsheet:blacklist:reason") expiry reason)).1
  (redisCommand context (.SADD "repsheet:blacklist:history" actor)).1

/-- The string `rec` that source `record` builds: each of the five fields is
copied, or replaced by `-` when the pointer is NULL, and the copies are
printed with the format `%s, %s, %s, %s, %s`. -/
def record_rec (timestamp user_agent http_method uri arguments : Option String) : String :=
  let t := match timestamp with
    | none => "-"
    | some s => s
  let ua := match user_agent with
    | none => "-"
    | some s => s
  let method := match http_method with
    | none => "-"
    | some s => s
  let u := match uri with
    | none => "-"
    | some s => s
  let args := match arguments with
    | none => "-"
    | some s => s
  t ++ ", " ++ ua ++ ", " ++ method ++ ", " ++ u ++ ", " ++ args

/-- The commands source `record` sends, in order: `LPUSH %s:requests %s`,
`LTRIM %s:requests 0 %d` with `redis_max_length - 1`, and, only when
`redis_expiry > 0`, `EXPIRE %s:requests %d`. -/
def record_commands (timestamp user_agent http_method uri arguments : Option String)
    (redis_max_length redis_expiry : Int) (actor : String) : List Command :=
  [Command.LPUSH (actor ++ ":requests")
      (record_rec timestamp user_agent http_method uri arguments),
    Command.LTRIM (actor ++ ":requests") 0 (redis_max_length - 1)] ++
  (if redis_expiry > 0 then [Command.EXPIRE (actor ++ ":requests") redis_expiry] else [])

/-- Source `record`: sends its commands one after the other and ignores the
replies. -/
def record (context : Store) (timestamp user_agent http_method uri arguments : Option String)
    (redis_max_length redis_expiry : Int) (actor : String) : Store :=
  (record_commands timestamp user_agent http_method uri arguments redis_max_length
    redis_expiry actor).foldl (fun ctx cmd => (redisCommand ctx cmd).1) context

/-- The request log of an actor: the list under `actor:requests`, empty when
the key is absent or holds another type. -/
def requests (context : Store) (actor : String) : List String :=
  match context (actor ++ ":requests") with
  | some ⟨.list l, _⟩ => l
  | _ => []

/-- One call of `record`: the five optional fields and the expiry. -/
structure Request where
  timestamp : Option String
  user_agent : Option String
  http_method : Option String
  uri : Option String
  arguments : Option String
  redis_expiry : Int

/-- The log entry of a request. -/
def Request.entry (r : Request) : String :=
  record_rec r.timestamp r.user_agent r.http_method r.uri r.arguments

/-- Successive calls of `record` for one actor with one maximum length, the
first request of the list first. -/
def record_all (context : Store) (redis_max_length : Int) (actor : String) :
    List Request → Store
  | [] => context
  | r :: rs =>
      record_all
        (record context r.timestamp r.user_agent r.http_method r.uri r.arguments
          redis_max_length r.redis_expiry actor)
        redis_max_length actor rs

/-- The time-to-live of a key: `none` when the key is absent or does not
expire. -/
def time_to_live (context : Store) (key : String) : Option Int :=
  (context key).bind Entry.ttl

/-- The trigger count of a rule in the trigger set of an actor (`ZSCORE` on
`actor:detected`): `none` when the rule is not a member or there is no
sorted set under the key. -/
def trigger_count (context : Store) (actor rule : String) : Option Score :=
  match context (actor ++ ":detected") with
  | some ⟨.zset z, _⟩ => zset_score z rule
  | _ => none

/-- The last `n` characters of a key, last one first. -/
def last_chars (n : Nat) (key : String) : List Char :=
  key.data.reverse.take n

/-- The C `struct timeval`: seconds and microseconds. -/
structure timeval where
  tv_sec : Int
  tv_usec : Int
deriving DecidableEq

/-- Length of a `timeval` in microseconds. -/
def timeval.microseconds (t : timeval) : Int :=
  t.tv_sec * 1000000 + t.tv_usec

/-- The connection handle of hiredis, as far as `get_redis_context` reads
it: the error flag and the error text. -/
structure redisContext where
  err : Int
  errstr : String
deriving DecidableEq

/-- The local `time` of source `get_redis_context`:
`struct timeval time = {0, (timeout > 0) ? timeout : 10000}`. -/
def get_redis_context_time (timeout : Int) : timeval :=
  ⟨0, if timeout > 0 then timeout else 10000⟩

/-- Source `get_redis_context`, over the connect call of the client library:
a NULL or failed handle gives NULL. -/
def get_redis_context
    (redisConnectWithTimeout : String → Int → timeval → Option redisContext)
    (host : String) (port timeout : Int) : Option redisContext :=
  let time := get_redis_context_time timeout
  match redisConnectWithTimeout host port time with
  | none => none
  | some context => if context.err ≠ 0 then none else some context

/-! ## The address resolver -/

/-- Splits a text at every occurrence of a character; empty pieces are
kept. -/
def split_at (sep : Char) : List Char → List (List Char)
  | [] => [[]]
  | c :: cs =>
      if c = sep then [] :: split_at sep cs
      else
        match split_at sep cs with
        | [] => [[c]]
        | x :: xs => (c :: x) :: xs

/-- Value of a run of decimal digits. -/
def decimal_value (s : List Char) : Nat :=
  s.foldl (fun acc c => acc * 10 + (c.toNat - 48)) 0

/-- Modelled from the spec: a component of a dotted quad of `remote_address`,
whose source file is not part of the sources at hand, is a decimal integer in
[0,255]: a non-empty run of decimal digits with a value of at most 255. -/
def valid_octet (s : List Char) : Bool :=
  !s.isEmpty && s.all Char.isDigit && decide (decimal_value s ≤ 255)

/-- Modelled from the spec: the validity test of `remote_address`, whose
source file is not part of the sources at hand.  A token is a valid IPv4
dotted quad when it has four components, each a decimal integer in [0,255],
with nothing else attached. -/
def valid_ipv4 (token : String) : Bool :=
  match split_at '.' token.data with
  | [a, b, c, d] => valid_octet a && valid_octet b && valid_octet c && valid_octet d
  | _ => false

/-- Modelled from the spec: the tokens of a forwarded-address header, a list
separated by commas and spaces, from left to right. -/
def header_tokens (header : String) : List String :=
  (((split_at ',' header.data).map (split_at ' ')).flatten.filter
    (fun t => !t.isEmpty)).map String.mk

/-- Modelled from the spec: `remote_address`, declared for the tests but
defined in a source file that is not part of the sources at hand.  Without a
forwarded header the direct address is returned as it is (NULL when it is
NULL); with a header, the first token that is a valid IPv4 dotted quad, and
NULL when no token is. -/
def remote_address (connected_address forwarded_header : Option String) : Option String :=
  match forwarded_header with
  | none => connected_address
  | some header => (header_tokens header).find? valid_ipv4

/-! ## Flag probes -/

/-- The probes agree with a direct look at the flag key: the answer is TRUE
exactly for a string value whose C text is `true`. -/
theorem probe_get (ctx : Store) (key : String) :
    (match (redisCommand ctx (.GET key)).2.str with
      | some s => strcmp_eq s "true"
      | none => false) = true ↔
    ∃ v ttl, ctx key = some ⟨.str v, ttl⟩ ∧ cstr v = cstr "true" := by
  simp only [redisCommand]
  cases h : ctx key with
  | none => simp [Reply.str]
  | some e =>
    obtain ⟨val, ttl⟩ := e
    cases val with
    | str v => simp [Reply.str, strcmp_eq]
    | list l => simp [Reply.str, strcmp_eq, wrongtype]; decide
    | set m => simp [Reply.str, strcmp_eq, wrongtype]; decide
    | zset z => simp [Reply.str, strcmp_eq, wrongtype]; decide

/-- A buffer without the byte 0 is read whole. -/
theorem cstr_of_nul_free (v : String) (h : Char.ofNat 0 ∉ v.data) : cstr v = v.data := by
  unfold cstr
  rw [List.takeWhile_eq_self_iff]
  intro c hc
  simp only [ne_eq, decide_not, Bool.not_eq_eq_eq_not, Bool.not_true, decide_eq_false_iff_not]
  intro hh
  exact h (hh ▸ hc)

/-- For a value without the byte 0, having the C text `true` is being the
string `true`. -/
theorem cstr_true_iff (v : String) (h : Char.ofNat 0 ∉ v.data) :
    cstr v = cstr "true" ↔ v = "true" := by
  rw [cstr_of_nul_free v h]
  constructor
  · intro hv
    exact String.ext (hv.trans (by decide))
  · intro hv
    subst hv
    decide

/-- C4, as stated, fails: the blacklist flag key of `1.1.1.1` holds the six
bytes `t r u e 0 x`, which is not the string `true`, yet `is_blacklisted`
answers TRUE, because `strcmp` stops at the byte 0. -/
theorem is_blacklisted_true_on_other_value :
    Store.empty.put "1.1.1.1:repsheet:blacklist" ⟨.str "true\x00x", none⟩
        ("1.1.1.1" ++ ":repsheet:blacklist") = some ⟨.str "true\x00x", none⟩ ∧
      "true\x00x" ≠ "true" ∧
      is_blacklisted
        (Store.empty.put "1.1.1.1:repsheet:blacklist" ⟨.str "true\x00x", none⟩) "1.1.1.1" = true := by
  refine ⟨by decide, by decide, by decide⟩

/-- C4 (amended): `is_blacklisted`, `is_on_repsheet` and `is_whitelisted` are
total, and each returns TRUE if and only if its flag key holds a string value
whose text before the first byte 0 is `true`; for an absent key, any other
string and a value of another type they return FALSE.  For a stored string
without the byte 0 this is: TRUE if and only if the value is exactly `true`. -/
theorem flag_probes_true_iff (ctx : Store) (actor : String) :
    (is_blacklisted ctx actor = true ↔
        ∃ v ttl, ctx (actor ++ ":repsheet:blacklist") = some ⟨.str v, ttl⟩ ∧ cstr v = cstr "true") ∧
      (is_on_repsheet ctx actor = true ↔
        ∃ v ttl, ctx (actor ++ ":repsheet") = some ⟨.str v, ttl⟩ ∧ cstr v = cstr "true") ∧
      (is_whitelisted ctx actor = true ↔
        ∃ v ttl, ctx (actor ++ ":repsheet:whitelist") = some ⟨.str v, ttl⟩ ∧ cstr v = cstr "true") ∧
      (∀ v ttl, Char.ofNat 0 ∉ v.data →
        (ctx (actor ++ ":repsheet:blacklist") = some ⟨.str v, ttl⟩ →
          (is_blacklisted ctx actor = true ↔ v = "true")) ∧
        (ctx (actor ++ ":repsheet") = some ⟨.str v, ttl⟩ →
          (is_on_repsheet ctx actor = true ↔ v = "true")) ∧
        (ctx (actor ++ ":repsheet:whitelist") = some ⟨.str v, ttl⟩ →
          (is_whitelisted ctx actor = true ↔ v = "true"))) := by
  have hb := probe_get ctx (actor ++ ":repsheet:blacklist")
  have hm := probe_get ctx (actor ++ ":repsheet")
  have hw := probe_get ctx (actor ++ ":repsheet:whitelist")
  refine ⟨hb, hm, hw, ?_⟩
  intro v ttl hv
  have key : ∀ k : String, ctx k = some ⟨.str v, ttl⟩ →
      ((∃ v' ttl', ctx k = some ⟨.str v', ttl'⟩ ∧ cstr v' = cstr "true") ↔ v = "true") := by
    intro k hk
    rw [← cstr_true_iff v hv]
    constructor
    · rintro ⟨v', ttl', h1, h2⟩
      rw [hk] at h1
      cases h1
      exact h2
    · intro h
      exact ⟨v, ttl, hk, h⟩
  refine ⟨fun h => ?_, fun h => ?_, fun h => ?_⟩
  · exact hb.trans (key _ h)
  · exact hm.trans (key _ h)
  · exact hw.trans (key _ h)

/-- Witness for C4 (amended): a store whose blacklist flag key holds `true`,
whose marked flag key holds a list and whose whitelist flag key is absent. -/
theorem flag_probes_true_iff_witness :
    is_blacklisted ((Store.empty.put "a:repsheet" ⟨.list ["x"], none⟩).put
        "a:repsheet:blacklist" ⟨.str "true", some 5⟩) "a" = true ∧
      is_on_repsheet ((Store.empty.put "a:repsheet" ⟨.list ["x"], none⟩).put
        "a:repsheet:blacklist" ⟨.str "true", some 5⟩) "a" = false ∧
      is_whitelisted ((Store.empty.put "a:repsheet" ⟨.list ["x"], none⟩).put
        "a:repsheet:blacklist" ⟨.str "true", some 5⟩) "a" = false := by
  have h := flag_probes_true_iff ((Store.empty.put "a:repsheet" ⟨.list ["x"], none⟩).put
        "a:repsheet:blacklist" ⟨.str "true", some 5⟩) "a"
  refine ⟨?_, ?_, ?_⟩
  · exact ((h.2.2.2 "true" (some 5) (by decide)).1 (by decide)).2 rfl
  · rw [Bool.eq_false_iff]
    intro hc
    obtain ⟨v, ttl, hv, _⟩ := h.2.1.1 hc
    have hs : ((Store.empty.put "a:repsheet" ⟨.list ["x"], none⟩).put
        "a:repsheet:blacklist" ⟨.str "true", some 5⟩) ("a" ++ ":repsheet") =
        some ⟨.list ["x"], none⟩ := by decide
    rw [hs] at hv
    simp at hv
  · rw [Bool.eq_false_iff]
    intro hc
    obtain ⟨v, ttl, hv, _⟩ := h.2.2.1.1 hc
    have hs : ((Store.empty.put "a:repsheet" ⟨.list ["x"], none⟩).put
        "a:repsheet:blacklist" ⟨.str "true", some 5⟩) ("a" ++ ":repsheet:whitelist") =
        none := by decide
    rw [hs] at hv
    simp at hv

/-! ## Keys and store updates -/

theorem Store.put_same (ctx : Store) (key : String) (e : Entry) :
    ctx.put key e key = some e := by
  simp [Store.put]

theorem Store.put_other (ctx : Store) (key k : String) (e : Entry) (h : k ≠ key) :
    ctx.put key e k = ctx k := by
  simp [Store.put, h]

/-- A key built by appending a tail ends in the last characters of the tail. -/
theorem last_chars_append (n : Nat) (a t : String) (h : n ≤ t.length) :
    last_chars n (a ++ t) = last_chars n t := by
  unfold last_chars
  rw [String.data_append, List.reverse_append]
  exact List.take_append_of_le_length (by simpa using h)

/-- Keys with different endings are different. -/
theorem ne_of_last_chars (n : Nat) (k₁ k₂ : String) (h : last_chars n k₁ ≠ last_chars n k₂) :
    k₁ ≠ k₂ := by
  intro hk
  exact h (hk ▸ rfl)

/-- Keys of different actors with the same tail are different. -/
theorem append_tail_ne (a b t : String) (h : a ≠ b) : a ++ t ≠ b ++ t := by
  intro hk
  apply h
  have hd := congrArg String.data hk
  rw [String.data_append, String.data_append] at hd
  exact String.ext (List.append_cancel_right hd)

/-- Keys of two actors whose tails end differently are different. -/
theorem key_ne (n : Nat) (a b s t : String) (hs : n ≤ s.length) (ht : n ≤ t.length)
    (h : last_chars n s ≠ last_chars n t) : a ++ s ≠ b ++ t := by
  apply ne_of_last_chars n
  rw [last_chars_append n a s hs, last_chars_append n b t ht]
  exact h

/-- A fixed key and the key of an actor that end differently are different. -/
theorem fixed_key_ne (n : Nat) (k b t : String) (ht : n ≤ t.length)
    (h : last_chars n k ≠ last_chars n t) : k ≠ b ++ t := by
  apply ne_of_last_chars n
  rw [last_chars_append n b t ht]
  exact h

/-- What `blacklist_and_expire` leaves under a key other than the three it
writes. -/
theorem blacklist_and_expire_other (ctx : Store) (actor reason : String) (expiry : Int)
    (k : String) (h1 : k ≠ actor ++ ":repsheet:blacklist")
    (h2 : k ≠ actor ++ ":repsheet:blacklist:reason") (h3 : k ≠ "repsheet:blacklist:history") :
    blacklist_and_expire ctx actor expiry reason k = ctx k := by
  unfold blacklist_and_expire
  simp only [redisCommand]
  by_cases he : expiry ≤ 0
  · simp only [he, if_true]
    cases hh : ctx "repsheet:blacklist:history" with
    | none => simp [Store.put_other, h3]
    | some e =>
      obtain ⟨val, ttl⟩ := e
      cases val with
      | set m =>
        by_cases hm : actor ∈ m
        · simp [hm]
        · simp [hm, Store.put_other, h3]
      | str v => simp
      | list l => simp
      | zset z => simp
  · simp only [he, if_false]
    generalize hc : ((ctx.put (actor ++ ":repsheet:blacklist") ⟨.str "true", some expiry⟩).put
      (actor ++ ":repsheet:blacklist:reason") ⟨.str reason, some expiry⟩) = c
    have hck : c k = ctx k := by
      rw [← hc, Store.put_other _ _ _ _ h2, Store.put_other _ _ _ _ h1]
    cases hh : c "repsheet:blacklist:history" with
    | none => simp [Store.put_other, h3, hck]
    | some e =>
      obtain ⟨val, ttl⟩ := e
      cases val with
      | set m =>
        by_cases hm : actor ∈ m
        · simp [hm, hck]
        · simp [hm, Store.put_other, h3, hck]
      | str v => simp [hck]
      | list l => simp [hck]
      | zset z => simp [hck]

/-- What `blacklist_actor` leaves under a key other than the flag key. -/
theorem blacklist_actor_other (ctx : Store) (actor k : String)
    (h : k ≠ actor ++ ":repsheet:blacklist") : blacklist_actor ctx actor k = ctx k := by
  unfold blacklist_actor
  simp only [redisCommand]
  exact Store.put_other _ _ _ _ h

theorem is_blacklisted_congr (c₁ c₂ : Store) (b : String)
    (h : c₁ (b ++ ":repsheet:blacklist") = c₂ (b ++ ":repsheet:blacklist")) :
    is_blacklisted c₁ b = is_blacklisted c₂ b := by
  unfold is_blacklisted
  simp only [redisCommand, h]
  cases c₂ (b ++ ":repsheet:blacklist") with
  | none => rfl
  | some e =>
    obtain ⟨val, ttl⟩ := e
    cases val <;> rfl

theorem is_whitelisted_congr (c₁ c₂ : Store) (b : String)
    (h : c₁ (b ++ ":repsheet:whitelist") = c₂ (b ++ ":repsheet:whitelist")) :
    is_whitelisted c₁ b = is_whitelisted c₂ b := by
  unfold is_whitelisted
  simp only [redisCommand, h]
  cases c₂ (b ++ ":repsheet:whitelist") with
  | none => rfl
  | some e =>
    obtain ⟨val, ttl⟩ := e
    cases val <;> rfl

theorem is_on_repsheet_congr (c₁ c₂ : Store) (b : String)
    (h : c₁ (b ++ ":repsheet") = c₂ (b ++ ":repsheet")) :
    is_on_repsheet c₁ b = is_on_repsheet c₂ b := by
  unfold is_on_repsheet
  simp only [redisCommand, h]
  cases c₂ (b ++ ":repsheet") with
  | none => rfl
  | some e =>
    obtain ⟨val, ttl⟩ := e
    cases val <;> rfl

theorem blacklist_key_ne_reason (a b : String) :
    b ++ ":repsheet:blacklist" ≠ a ++ ":repsheet:blacklist:reason" :=
  key_ne 1 b a _ _ (by decide) (by decide) (by decide)

theorem blacklist_key_ne_history (b : String) :
    b ++ ":repsheet:blacklist" ≠ "repsheet:blacklist:history" :=
  (fixed_key_ne 1 _ b _ (by decide) (by decide)).symm

theorem whitelist_key_ne_blacklist (a b : String) :
    b ++ ":repsheet:whitelist" ≠ a ++ ":repsheet:blacklist" :=
  key_ne 9 b a _ _ (by decide) (by decide) (by decide)

theorem whitelist_key_ne_reason (a b : String) :
    b ++ ":repsheet:whitelist" ≠ a ++ ":repsheet:blacklist:reason" :=
  key_ne 1 b a _ _ (by decide) (by decide) (by decide)

theorem whitelist_key_ne_history (b : String) :
    b ++ ":repsheet:whitelist" ≠ "repsheet:blacklist:history" :=
  (fixed_key_ne 1 _ b _ (by decide) (by decide)).symm

theorem marked_key_ne_blacklist (a b : String) :
    b ++ ":repsheet" ≠ a ++ ":repsheet:blacklist" :=
  key_ne 9 b a _ _ (by decide) (by decide) (by decide)

theorem marked_key_ne_reason (a b : String) :
    b ++ ":repsheet" ≠ a ++ ":repsheet:blacklist:reason" :=
  key_ne 1 b a _ _ (by decide) (by decide) (by decide)

theorem marked_key_ne_history (b : String) :
    b ++ ":repsheet" ≠ "repsheet:blacklist:history" :=
  (fixed_key_ne 1 _ b _ (by decide) (by decide)).symm

theorem is_blacklisted_empty (b : String) : is_blacklisted Store.empty b = false := by
  simp [is_blacklisted, redisCommand, Store.empty, Reply.str]

/-- C5: `blacklist_and_expire` and `blacklist_actor` for an actor `a` leave
`is_blacklisted b` for every `b` other than `a`, and `is_whitelisted b` and
`is_on_repsheet b` for every `b`, as they were; and when `a` is blacklisted
in the empty store, `is_blacklisted b` is FALSE for every other `b`. -/
theorem blacklisting_changes_no_other_probe (ctx : Store) (a b reason : String)
    (expiry : Int) :
    (b ≠ a →
        is_blacklisted (blacklist_and_expire ctx a expiry reason) b = is_blacklisted ctx b) ∧
      is_whitelisted (blacklist_and_expire ctx a expiry reason) b = is_whitelisted ctx b ∧
      is_on_repsheet (blacklist_and_expire ctx a expiry reason) b = is_on_repsheet ctx b ∧
      (b ≠ a → is_blacklisted (blacklist_actor ctx a) b = is_blacklisted ctx b) ∧
      is_whitelisted (blacklist_actor ctx a) b = is_whitelisted ctx b ∧
      is_on_repsheet (blacklist_actor ctx a) b = is_on_repsheet ctx b ∧
      (b ≠ a →
        is_blacklisted (blacklist_and_expire Store.empty a expiry reason) b = false ∧
        is_blacklisted (blacklist_actor Store.empty a) b = false) := by
  have hbe : ∀ c : Store, b ≠ a →
      is_blacklisted (blacklist_and_expire c a expiry reason) b = is_blacklisted c b :=
    fun c hab => is_blacklisted_congr _ _ b
      (blacklist_and_expire_other c a reason expiry _ (append_tail_ne b a _ hab)
        (blacklist_key_ne_reason a b) (blacklist_key_ne_history b))
  have hba : ∀ c : Store, b ≠ a → is_blacklisted (blacklist_actor c a) b = is_blacklisted c b :=
    fun c hab => is_blacklisted_congr _ _ b
      (blacklist_actor_other c a _ (append_tail_ne b a _ hab))
  refine ⟨hbe ctx, ?_, ?_, hba ctx, ?_, ?_, ?_⟩
  · exact is_whitelisted_congr _ _ b
      (blacklist_and_expire_other ctx a reason expiry _ (whitelist_key_ne_blacklist a b)
        (whitelist_key_ne_reason a b) (whitelist_key_ne_history b))
  · exact is_on_repsheet_congr _ _ b
      (blacklist_and_expire_other ctx a reason expiry _ (marked_key_ne_blacklist a b)
        (marked_key_ne_reason a b) (marked_key_ne_history b))
  · exact is_whitelisted_congr _ _ b
      (blacklist_actor_other ctx a _ (whitelist_key_ne_blacklist a b))
  · exact is_on_repsheet_congr _ _ b
      (blacklist_actor_other ctx a _ (marked_key_ne_blacklist a b))
  · intro hab
    exact ⟨(hbe _ hab).trans (is_blacklisted_empty b), (hba _ hab).trans (is_blacklisted_empty b)⟩

/-- Witness for C5: the test of the repository, `1.1.1.1` blacklisted for 200
seconds in the empty store and `1.1.1.2` probed. -/
theorem blacklisting_changes_no_other_probe_witness :
    "1.1.1.2" ≠ "1.1.1.1" ∧
      is_blacklisted (blacklist_and_expire Store.empty "1.1.1.1" 200
        "Blacklist Reason IP Not Found Test") "1.1.1.2" = false ∧
      is_blacklisted (blacklist_and_expire Store.empty "1.1.1.1" 200
        "Blacklist Reason IP Not Found Test") "1.1.1.1" = true :=
  ⟨by decide,
    ((blacklisting_changes_no_other_probe Store.empty "1.1.1.1" "1.1.1.2"
      "Blacklist Reason IP Not Found Test" 200).2.2.2.2.2.2 (by decide)).1,
    by decide⟩

/-! ## Blacklisting with an expiry -/

/-- `SADD` changes no other key. -/
theorem sadd_other (c : Store) (key member k : String) (h : k ≠ key) :
    (redisCommand c (.SADD key member)).1 k = c k := by
  simp only [redisCommand]
  cases hh : c key with
  | none => simp [Store.put_other, h]
  | some e =>
    obtain ⟨val, ttl⟩ := e
    cases val with
    | set m =>
      by_cases hm : member ∈ m
      · simp [hm]
      · simp [hm, Store.put_other, h]
    | str v => simp
    | list l => simp
    | zset z => simp

/-- After `SADD` on an absent key or a set, the member is in the set. -/
theorem sadd_member (c : Store) (key member : String)
    (h : c key = none ∨ ∃ m ttl, c key = some ⟨.set m, ttl⟩) :
    (redisCommand (redisCommand c (.SADD key member)).1 (.SISMEMBER key member)).2 =
      .integer 1 := by
  rcases h with h | ⟨m, ttl, h⟩
  · simp [redisCommand, h, Store.put_same]
  · by_cases hm : member ∈ m
    · simp [redisCommand, h, hm]
    · simp [redisCommand, h, hm, Store.put_same]

/-- C1, as stated, fails: in a store whose key `repsheet:blacklist:history`
holds a string, `blacklist_and_expire` with expiry 200 leaves the key as it
was, so no history set contains the actor (`SISMEMBER` answers with an
error, not with 1). -/
theorem blacklist_and_expire_history_not_a_set :
    (redisCommand
        (blacklist_and_expire
          (Store.empty.put "repsheet:blacklist:history" ⟨.str "x", none⟩) "1.1.1.1" 200
          "IP Blacklist And Expire Test")
        (.SISMEMBER "repsheet:blacklist:history" "1.1.1.1")).2 = wrongtype ∧
      blacklist_and_expire
          (Store.empty.put "repsheet:blacklist:history" ⟨.str "x", none⟩) "1.1.1.1" 200
          "IP Blacklist And Expire Test" "repsheet:blacklist:history" =
        some ⟨.str "x", none⟩ := by
  refine ⟨by decide, by decide⟩

/-- C1 (amended): for every store state in which the key
`repsheet:blacklist:history` is absent or holds a set, every actor, reason and
expiry > 0: immediately after `blacklist_and_expire`, `is_blacklisted` returns
TRUE, the blacklist flag key holds `true` with time-to-live exactly the
expiry, the reason key holds exactly the reason with the same time-to-live,
and the blacklist history set contains the actor. -/
theorem blacklist_and_expire_sets_flag_reason_history (ctx : Store) (actor reason : String)
    (expiry : Int) (hexp : 0 < expiry)
    (hhist : ctx "repsheet:blacklist:history" = none ∨
      ∃ m ttl, ctx "repsheet:blacklist:history" = some ⟨.set m, ttl⟩) :
    is_blacklisted (blacklist_and_expire ctx actor expiry reason) actor = true ∧
      blacklist_and_expire ctx actor expiry reason (actor ++ ":repsheet:blacklist") =
        some ⟨.str "true", some expiry⟩ ∧
      (redisCommand (blacklist_and_expire ctx actor expiry reason)
        (.TTL (actor ++ ":repsheet:blacklist"))).2 = .integer expiry ∧
      blacklist_and_expire ctx actor expiry reason (actor ++ ":repsheet:blacklist:reason") =
        some ⟨.str reason, some expiry⟩ ∧
      (redisCommand (blacklist_and_expire ctx actor expiry reason)
        (.GET (actor ++ ":repsheet:blacklist:reason"))).2 = .string reason ∧
      (redisCommand (blacklist_and_expire ctx actor expiry reason)
        (.TTL (actor ++ ":repsheet:blacklist:reason"))).2 = .integer expiry ∧
      (redisCommand (blacklist_and_expire ctx actor expiry reason)
        (.SISMEMBER "repsheet:blacklist:history" actor)).2 = .integer 1 := by
  have he : ¬ expiry ≤ 0 := not_le.mpr hexp
  have hrk : actor ++ ":repsheet:blacklist:reason" ≠ "repsheet:blacklist:history" :=
    (fixed_key_ne 1 _ actor _ (by decide) (by decide)).symm
  have hfk := blacklist_key_ne_history actor
  have hfr := blacklist_key_ne_reason actor actor
  have hdef : blacklist_and_expire ctx actor expiry reason =
      (redisCommand
        ((ctx.put (actor ++ ":repsheet:blacklist") ⟨.str "true", some expiry⟩).put
          (actor ++ ":repsheet:blacklist:reason") ⟨.str reason, some expiry⟩)
        (.SADD "repsheet:blacklist:history" actor)).1 := by
    unfold blacklist_and_expire
    simp only [redisCommand, he, if_false]
  have hflag : blacklist_and_expire ctx actor expiry reason (actor ++ ":repsheet:blacklist") =
      some ⟨.str "true", some expiry⟩ := by
    rw [hdef, sadd_other _ _ _ _ hfk, Store.put_other _ _ _ _ hfr, Store.put_same]
  have hreason :
      blacklist_and_expire ctx actor expiry reason (actor ++ ":repsheet:blacklist:reason") =
      some ⟨.str reason, some expiry⟩ := by
    rw [hdef, sadd_other _ _ _ _ hrk, Store.put_same]
  refine ⟨?_, hflag, ?_, hreason, ?_, ?_, ?_⟩
  · simp [is_blacklisted, redisCommand, hflag, Reply.str, strcmp_eq]
  · simp [redisCommand, hflag]
  · simp [redisCommand, hreason]
  · simp [redisCommand, hreason]
  · rw [hdef]
    apply sadd_member
    rw [Store.put_other _ _ _ _ hrk.symm, Store.put_other _ _ _ _ hfk.symm]
    exact hhist

/-- Witness for C1 (amended): the test of the repository in the empty store,
`1.1.1.1` blacklisted for 200 seconds. -/
theorem blacklist_and_expire_sets_flag_reason_history_witness :
    (0 : Int) < 200 ∧
      is_blacklisted
        (blacklist_and_expire Store.empty "1.1.1.1" 200 "IP Blacklist And Expire Test")
        "1.1.1.1" = true ∧
      (redisCommand
        (blacklist_and_expire Store.empty "1.1.1.1" 200 "IP Blacklist And Expire Test")
        (.TTL ("1.1.1.1" ++ ":repsheet:blacklist"))).2 = .integer 200 ∧
      (redisCommand
        (blacklist_and_expire Store.empty "1.1.1.1" 200 "IP Blacklist And Expire Test")
        (.SISMEMBER "repsheet:blacklist:history" "1.1.1.1")).2 = .integer 1 :=
  have h := blacklist_and_expire_sets_flag_reason_history Store.empty "1.1.1.1"
    "IP Blacklist And Expire Test" 200 (by decide) (Or.inl rfl)
  ⟨by decide, h.1, h.2.2.1, h.2.2.2.2.2.2⟩

/-! ## The request log -/

/-- With a maximum `N ≥ 1`, `LTRIM 0 (N - 1)` keeps the first `N` elements. -/
theorem ltrim_range_zero (l : List String) (N : Int) (h : 1 ≤ N) :
    ltrim_range l 0 (N - 1) = l.take N.toNat := by
  have h1 : ¬ (N - 1 < 0) := by omega
  by_cases hl : l = []
  · subst hl; simp [ltrim_range]
  · have hpos : 0 < l.length := List.length_pos.mpr hl
    have h2 : ¬ ((0 : Int) ≥ (l.length : Int)) := by omega
    by_cases h3 : N - 1 ≥ (l.length : Int)
    · have e : ltrim_range l 0 (N - 1) = List.take ((l.length : Int) - 1 - 0 + 1).toNat (l.drop 0) := by
        simp only [ltrim_range, lt_self_iff_false, if_false, h1, false_or, if_neg h2, if_pos h3, Int.toNat_zero]
      rw [e, List.drop_zero, List.take_of_length_le (by omega), List.take_of_length_le (by omega)]
    · have e : ltrim_range l 0 (N - 1) = List.take (N - 1 - 0 + 1).toNat (l.drop 0) := by
        simp only [ltrim_range, lt_self_iff_false, if_false, h1, false_or, if_neg h2, if_neg h3, Int.toNat_zero]
      rw [e, List.drop_zero]
      congr 1
      omega

/-- The interval `0 .. -1` is the whole list: `LTRIM 0 -1` keeps everything. -/
theorem ltrim_range_all (l : List String) : ltrim_range l 0 (-1) = l := by
  by_cases hl : l = []
  · subst hl; simp [ltrim_range]
  · have hpos : 0 < l.length := List.length_pos.mpr hl
    have h1 : (-1 : Int) < 0 := by decide
    have h2 : ¬ ((0 : Int) > (l.length : Int) + -1 ∨ (0 : Int) ≥ (l.length : Int)) := by omega
    have h3 : ¬ ((l.length : Int) + -1 ≥ (l.length : Int)) := by omega
    have e : ltrim_range l 0 (-1) = List.take ((l.length : Int) + -1 - 0 + 1).toNat (l.drop 0) := by
      simp only [ltrim_range, lt_self_iff_false, if_false, h1, if_true, if_neg h2, if_neg h3, Int.toNat_zero]
    rw [e, List.drop_zero, List.take_of_length_le (by omega)]

/-- Source `record`, command by command. -/
theorem record_eq (ctx : Store) (t ua m u a : Option String) (N exp : Int) (actor : String) :
    record ctx t ua m u a N exp actor =
      if exp > 0 then
        (redisCommand
          (redisCommand (redisCommand ctx (.LPUSH (actor ++ ":requests") (record_rec t ua m u a))).1
            (.LTRIM (actor ++ ":requests") 0 (N - 1))).1
          (.EXPIRE (actor ++ ":requests") exp)).1
      else
        (redisCommand (redisCommand ctx (.LPUSH (actor ++ ":requests") (record_rec t ua m u a))).1
          (.LTRIM (actor ++ ":requests") 0 (N - 1))).1 := by
  unfold record record_commands
  split_ifs <;> rfl

/-- Push and trim on an absent key (`l = []`) or on a list `l`, for a maximum
`N ≥ 1`: the key holds the first `N` elements of the entry followed by `l`. -/
theorem push_trim_list (ctx : Store) (key entry : String) (N : Int) (hN : 1 ≤ N)
    (l : List String) (ttl : Option Int)
    (h : (ctx key = none ∧ l = [] ∧ ttl = none) ∨ ctx key = some ⟨.list l, ttl⟩) :
    (redisCommand (redisCommand ctx (.LPUSH key entry)).1 (.LTRIM key 0 (N - 1))).1 key =
      some ⟨.list ((entry :: l).take N.toNat), ttl⟩ := by
  have hne : ∀ l' : List String, List.take N.toNat (entry :: l') ≠ [] := by
    intro l'
    obtain ⟨n, hn⟩ : ∃ n, N.toNat = n + 1 := ⟨N.toNat - 1, by omega⟩
    rw [hn]
    simp
  rcases h with ⟨h, hl, ht⟩ | h
  · subst hl ht
    simp only [redisCommand, h, Store.put_same, ltrim_range_zero _ _ hN]
    rw [if_neg (hne _)]
    exact Store.put_same _ _ _
  · simp only [redisCommand, h, Store.put_same, ltrim_range_zero _ _ hN]
    rw [if_neg (hne _)]
    exact Store.put_same _ _ _

/-- Push and trim on a key that holds another type change nothing. -/
theorem push_trim_wrongtype (ctx : Store) (key entry : String) (start stop : Int)
    (val : Value) (ttl : Option Int) (h : ctx key = some ⟨val, ttl⟩)
    (hv : ∀ l, val ≠ .list l) :
    (redisCommand (redisCommand ctx (.LPUSH key entry)).1 (.LTRIM key start stop)).1 = ctx := by
  cases val with
  | list l => exact absurd rfl (hv l)
  | str v => simp [redisCommand, h]
  | set m => simp [redisCommand, h]
  | zset z => simp [redisCommand, h]

/-- `EXPIRE` with a positive time on a present key sets its time-to-live. -/
theorem expire_present (c : Store) (key : String) (exp : Int) (e : Entry) (h : c key = some e)
    (hexp : exp > 0) : (redisCommand c (.EXPIRE key exp)).1 key = some ⟨e.val, some exp⟩ := by
  have he : ¬ exp ≤ 0 := not_le.mpr hexp
  simp [redisCommand, h, he, Store.put_same]

/-- One `record` on an absent log (`l = []`) or on a log `l`, for a maximum
`N ≥ 1`. -/
theorem record_list (ctx : Store) (t ua m u a : Option String) (N exp : Int) (actor : String)
    (hN : 1 ≤ N) (l : List String) (ttl : Option Int)
    (h : (ctx (actor ++ ":requests") = none ∧ l = [] ∧ ttl = none) ∨
      ctx (actor ++ ":requests") = some ⟨.list l, ttl⟩) :
    record ctx t ua m u a N exp actor (actor ++ ":requests") =
      some ⟨.list ((record_rec t ua m u a :: l).take N.toNat),
        if exp > 0 then some exp else ttl⟩ := by
  rw [record_eq]
  have hp := push_trim_list ctx (actor ++ ":requests") (record_rec t ua m u a) N hN l ttl h
  by_cases hexp : exp > 0
  · rw [if_pos hexp, if_pos hexp]
    exact expire_present _ _ _ _ hp hexp
  · rw [if_neg hexp, if_neg hexp]
    exact hp

/-- Trimming the older part first does not change what a later trim keeps. -/
theorem take_append_take (n : Nat) (A B : List String) :
    List.take n (A ++ List.take n B) = List.take n (A ++ B) := by
  rw [List.take_append_eq_append_take, List.take_append_eq_append_take, List.take_take]
  congr 2
  omega

/-- The log after successive calls of `record` on an absent log or on a log
within the maximum `N ≥ 1`: the entries of the calls, latest first, followed
by the earlier log, cut to `N`. -/
theorem record_all_requests (N : Int) (hN : 1 ≤ N) (actor : String) :
    ∀ (reqs : List Request) (ctx : Store),
      (ctx (actor ++ ":requests") = none ∨
        ∃ l ttl, ctx (actor ++ ":requests") = some ⟨.list l, ttl⟩) →
      (requests ctx actor).length ≤ N.toNat →
      requests (record_all ctx N actor reqs) actor =
        ((reqs.reverse.map Request.entry) ++ requests ctx actor).take N.toNat := by
  intro reqs
  induction reqs with
  | nil =>
    intro ctx _ hlen
    simp only [record_all, List.reverse_nil, List.map_nil, List.nil_append]
    exact (List.take_of_length_le hlen).symm
  | cons r rs ih =>
    intro ctx hok _
    have hstep : ∃ ttl', record ctx r.timestamp r.user_agent r.http_method r.uri r.arguments N
        r.redis_expiry actor (actor ++ ":requests") =
        some ⟨.list ((r.entry :: requests ctx actor).take N.toNat), ttl'⟩ := by
      rcases hok with h | ⟨l, ttl, h⟩
      · have hr : requests ctx actor = [] := by simp [requests, h]
        rw [hr]
        exact ⟨_, record_list ctx _ _ _ _ _ N r.redis_expiry actor hN [] none
          (Or.inl ⟨h, rfl, rfl⟩)⟩
      · have hr : requests ctx actor = l := by simp [requests, h]
        rw [hr]
        exact ⟨_, record_list ctx _ _ _ _ _ N r.redis_expiry actor hN l ttl (Or.inr h)⟩
    obtain ⟨ttl', hs⟩ := hstep
    have hreq : requests (record ctx r.timestamp r.user_agent r.http_method r.uri r.arguments N
        r.redis_expiry actor) actor = (r.entry :: requests ctx actor).take N.toNat := by
      simp [requests, hs]
    have := ih (record ctx r.timestamp r.user_agent r.http_method r.uri r.arguments N
        r.redis_expiry actor) (Or.inr ⟨_, _, hs⟩)
        (by rw [hreq, List.length_take]; exact Nat.min_le_left _ _)
    simp only [record_all]
    rw [this, hreq, take_append_take]
    simp

/-- C2: for every maximum `N ≥ 1`, every `k > 0` and every actor whose log is
absent, after `N + k` successive calls of `record` with that maximum the log
has exactly `N` entries: the entries of the last `N` calls, latest first (those
of the first `k` calls are gone). -/
theorem record_keeps_latest (N k : Nat) (actor : String) (ctx : Store) (reqs : List Request)
    (hN : 1 ≤ N) (hk : 0 < k) (hempty : ctx (actor ++ ":requests") = none)
    (hlen : reqs.length = N + k) :
    requests (record_all ctx (N : Int) actor reqs) actor =
        (reqs.reverse.map Request.entry).take N ∧
      requests (record_all ctx (N : Int) actor reqs) actor =
        ((reqs.drop k).map Request.entry).reverse ∧
      (requests (record_all ctx (N : Int) actor reqs) actor).length = N := by
  have hr : requests ctx actor = [] := by simp [requests, hempty]
  have h := record_all_requests (N : Int) (by exact_mod_cast hN) actor reqs ctx (Or.inl hempty)
    (by rw [hr]; exact Nat.zero_le _)
  rw [hr, List.append_nil, Int.toNat_ofNat] at h
  refine ⟨h, ?_, ?_⟩
  · rw [h, ← List.map_reverse, ← List.map_take, List.take_reverse]
    congr 3
    omega
  · rw [h, List.length_take, List.length_map, List.length_reverse]
    omega

/-- Witness for C2: maximum 2 and three calls with the timestamps 1, 2, 3 in
the empty store; the log is the entries of calls 3 and 2. -/
theorem record_keeps_latest_witness :
    requests (record_all Store.empty 2 "1.1.1.1"
        [⟨some "1", none, none, none, none, 0⟩, ⟨some "2", none, none, none, none, 30⟩,
          ⟨some "3", none, none, none, none, 0⟩]) "1.1.1.1" =
      ["3, -, -, -, -", "2, -, -, -, -"] :=
  (record_keeps_latest 2 1 "1.1.1.1" Store.empty
    [⟨some "1", none, none, none, none, 0⟩, ⟨some "2", none, none, none, none, 30⟩,
      ⟨some "3", none, none, none, none, 0⟩] (by decide) (by decide) rfl rfl).1.trans (by decide)

/-- C3: for every combination of present and absent fields, the first command
of `record` pushes onto the request log of the actor the five fields in
order, joined by `, `, an absent field replaced by `-` and a present one
verbatim; the length of the entry is the sum of the five field lengths plus 8;
and in the empty store the log then consists of this entry. -/
theorem record_entry_format (t ua m u a : Option String) (N exp : Int) (actor : String) :
    (record_commands t ua m u a N exp actor).head? =
        some (.LPUSH (actor ++ ":requests")
          (t.getD "-" ++ ", " ++ ua.getD "-" ++ ", " ++ m.getD "-" ++ ", " ++ u.getD "-" ++
            ", " ++ a.getD "-")) ∧
      record_rec t ua m u a =
        String.intercalate ", " [t.getD "-", ua.getD "-", m.getD "-", u.getD "-", a.getD "-"] ∧
      (record_rec t ua m u a).length =
        (t.getD "-").length + (ua.getD "-").length + (m.getD "-").length + (u.getD "-").length +
          (a.getD "-").length + 8 ∧
      requests (record Store.empty t ua m u a 1 exp actor) actor =
        [t.getD "-" ++ ", " ++ ua.getD "-" ++ ", " ++ m.getD "-" ++ ", " ++ u.getD "-" ++
          ", " ++ a.getD "-"] := by
  have hrec : record_rec t ua m u a =
      t.getD "-" ++ ", " ++ ua.getD "-" ++ ", " ++ m.getD "-" ++ ", " ++ u.getD "-" ++
        ", " ++ a.getD "-" := by
    cases t <;> cases ua <;> cases m <;> cases u <;> cases a <;> rfl
  refine ⟨?_, ?_, ?_, ?_⟩
  · simp [record_commands, hrec]
  · rw [hrec]
    simp [String.intercalate, String.intercalate.go, String.append_assoc]
  · rw [hrec]
    simp only [String.length_append]
    have : ", ".length = 2 := by decide
    omega
  · have h := record_list Store.empty t ua m u a 1 exp actor (le_refl 1) [] none
      (Or.inl ⟨rfl, rfl, rfl⟩)
    simp [requests, h, hrec]

/-- The key of the request log after one `record` with a maximum `N ≥ 1`: it
is present, and its time-to-live is the expiry when that is positive and the
earlier one (none for a new log) otherwise. -/
theorem record_entry_ttl (ctx : Store) (t ua m u a : Option String) (N exp : Int)
    (actor : String) (hN : 1 ≤ N) :
    ∃ val, record ctx t ua m u a N exp actor (actor ++ ":requests") =
      some ⟨val, if exp > 0 then some exp else time_to_live ctx (actor ++ ":requests")⟩ := by
  cases h : ctx (actor ++ ":requests") with
  | none =>
    have hl := record_list ctx t ua m u a N exp actor hN [] none (Or.inl ⟨h, rfl, rfl⟩)
    exact ⟨.list ([record_rec t ua m u a].take N.toNat), by rw [hl]; simp [time_to_live, h]⟩
  | some e =>
    obtain ⟨val, ttl⟩ := e
    by_cases hv : ∃ l, val = .list l
    · obtain ⟨l, hl⟩ := hv
      subst hl
      have hl := record_list ctx t ua m u a N exp actor hN l ttl (Or.inr h)
      exact ⟨.list ((record_rec t ua m u a :: l).take N.toNat),
        by rw [hl]; simp [time_to_live, h]⟩
    · have hw := push_trim_wrongtype ctx (actor ++ ":requests") (record_rec t ua m u a) 0
        (N - 1) val ttl h (fun l hl => hv ⟨l, hl⟩)
      rw [record_eq, hw]
      by_cases hexp : exp > 0
      · rw [if_pos hexp, if_pos hexp]
        exact ⟨val, expire_present ctx _ exp _ h hexp⟩
      · rw [if_neg hexp, if_neg hexp]
        exact ⟨val, by simp [time_to_live, h]⟩

/-- C6: for every actor and every maximum `N ≥ 1`: when `redis_expiry ≤ 0`,
`record` leaves the time-to-live of the request log as it was (none for a log
that did not exist: `TTL` answers -1); when `redis_expiry > 0`, the
time-to-live immediately after `record` is exactly `redis_expiry` seconds. -/
theorem record_expiry (ctx : Store) (t ua m u a : Option String) (N exp : Int)
    (actor : String) (hN : 1 ≤ N) :
    (exp ≤ 0 →
        time_to_live (record ctx t ua m u a N exp actor) (actor ++ ":requests") =
          time_to_live ctx (actor ++ ":requests") ∧
        (ctx (actor ++ ":requests") = none →
          (redisCommand (record ctx t ua m u a N exp actor) (.TTL (actor ++ ":requests"))).2 =
            .integer (-1))) ∧
      (exp > 0 →
        time_to_live (record ctx t ua m u a N exp actor) (actor ++ ":requests") = some exp ∧
        (redisCommand (record ctx t ua m u a N exp actor) (.TTL (actor ++ ":requests"))).2 =
          .integer exp) := by
  obtain ⟨val, h⟩ := record_entry_ttl ctx t ua m u a N exp actor hN
  constructor
  · intro hexp
    have hn : ¬ exp > 0 := not_lt.mpr hexp
    rw [if_neg hn] at h
    refine ⟨by simp [time_to_live, h], ?_⟩
    intro habs
    have ht : time_to_live ctx (actor ++ ":requests") = none := by simp [time_to_live, habs]
    rw [ht] at h
    simp [redisCommand, h]
  · intro hexp
    rw [if_pos hexp] at h
    exact ⟨by simp [time_to_live, h], by simp [redisCommand, h]⟩

/-- Witness for C6: in the empty store a `record` with expiry 0 creates a log
without time-to-live, and a following `record` with expiry 60 sets it to 60. -/
theorem record_expiry_witness :
    (redisCommand (record Store.empty none none none none none 5 0 "1.1.1.1")
        (.TTL ("1.1.1.1" ++ ":requests"))).2 = .integer (-1) ∧
      (redisCommand
        (record (record Store.empty none none none none none 5 0 "1.1.1.1")
          none none none none none 5 60 "1.1.1.1")
        (.TTL ("1.1.1.1" ++ ":requests"))).2 = .integer 60 :=
  ⟨((record_expiry Store.empty none none none none none 5 0 "1.1.1.1" (by decide)).1
      (by decide)).2 rfl,
    ((record_expiry (record Store.empty none none none none none 5 0 "1.1.1.1")
      none none none none none 5 60 "1.1.1.1" (by decide)).2 (by decide)).2⟩

/-- C10 fails for the maximum 0: `record` sends `LTRIM 0 -1`, which keeps the
whole of every list.  In the empty store one call with `redis_max_length = 0`
leaves a log of one entry, and three calls leave three. -/
theorem record_max_length_zero_keeps_all :
    (record_commands (some "t") none none none none 0 0 "1.1.1.1").drop 1 =
        [.LTRIM "1.1.1.1:requests" 0 (-1)] ∧
      (∀ l : List String, ltrim_range l 0 (-1) = l) ∧
      requests (record Store.empty (some "t") none none none none 0 0 "1.1.1.1") "1.1.1.1" =
        ["t, -, -, -, -"] ∧
      ¬ ((requests (record Store.empty (some "t") none none none none 0 0 "1.1.1.1")
        "1.1.1.1").length ≤ 0) ∧
      (requests (record_all Store.empty 0 "1.1.1.1"
        [⟨some "1", none, none, none, none, 0⟩, ⟨some "2", none, none, none, none, 0⟩,
          ⟨some "3", none, none, none, none, 0⟩]) "1.1.1.1").length = 3 := by
  refine ⟨?_, ltrim_range_all, by decide, by decide, by decide⟩
  have hk : "1.1.1.1" ++ ":requests" = "1.1.1.1:requests" := by decide
  simp [record_commands, hk]

/-! ## The connection timeout -/

/-- C7 fails: the timeout is stored in the microsecond field of the
`timeval`.  For `timeout = 0` the connect call gets 0 s and 10000 µs, that is
10 ms and not 10000 ms; for `timeout = 250` it gets 250 µs and not 250 ms.  A
connect call that accepts only the `timeval` of 10000 ms (10 s, 0 µs) is
refused, one that accepts only 10000 µs succeeds. -/
theorem get_redis_context_timeout_in_microseconds :
    get_redis_context_time 0 = ⟨0, 10000⟩ ∧
      (get_redis_context_time 0).microseconds = 10000 ∧
      (get_redis_context_time 0).microseconds ≠ 10000 * 1000 ∧
      (get_redis_context_time 250).microseconds = 250 ∧
      (get_redis_context_time 250).microseconds ≠ 250 * 1000 ∧
      get_redis_context (fun _ _ tv => if tv = ⟨10, 0⟩ then some ⟨0, ""⟩ else none)
        "localhost" 6379 0 = none ∧
      get_redis_context (fun _ _ tv => if tv = ⟨0, 10000⟩ then some ⟨0, ""⟩ else none)
        "localhost" 6379 0 = some ⟨0, ""⟩ := by
  refine ⟨by decide, by decide, by decide, by decide, by decide, by decide, by decide⟩

/-! ## Rule counters -/

theorem zset_score_put_same (z : List (String × Score)) (member : String) (score : Score) :
    zset_score (zset_put z member score) member = some score := by
  induction z with
  | nil => simp [zset_put, zset_score]
  | cons p z ih =>
    obtain ⟨m, s⟩ := p
    by_cases h : m = member
    · simp [zset_put, zset_score, h]
    · simp [zset_put, zset_score, h, ih]

theorem zset_score_put_other (z : List (String × Score)) (member other : String) (score : Score)
    (h : other ≠ member) :
    zset_score (zset_put z member score) other = zset_score z other := by
  induction z with
  | nil => simp [zset_put, zset_score, Ne.symm h]
  | cons p z ih =>
    obtain ⟨m, s⟩ := p
    by_cases hm : m = member
    · subst hm
      simp [zset_put, zset_score, Ne.symm h]
    · by_cases ho : m = other
      · subst ho
        simp [zset_put, zset_score, hm]
      · simp [zset_put, zset_score, hm, ho, ih]

/-- No bit of a number below 2^53 exceeds the precision of a double. -/
theorem excess_bits_small (n : Nat) (h : n < 2 ^ 53) : excess_bits n n = 0 := by
  cases n with
  | zero => rfl
  | succ k => rw [excess_bits, if_pos h]

/-- An integer of magnitude at most 2^53 is a double: rounding leaves it as it
is. -/
theorem round_double_int (x : Int) (h : x.natAbs ≤ 2 ^ 53) : round_double x 0 = .int x := by
  rcases Nat.lt_or_eq_of_le h with h | h
  · have hs : (-1074 - (0 : Int)).toNat = 0 := by decide
    have hp : (2 : Nat) ^ 53 ≤ double_bound := by decide
    have hlt : ¬ (x.natAbs * 1 ≥ double_bound * 1) := by
      rw [Nat.mul_one, Nat.mul_one]
      exact not_le.mpr (lt_of_lt_of_le h hp)
    have hc : ¬ (2 * 0 > 1 ∨ 2 * 0 = 1 ∧ x.natAbs % 2 = 1) := by omega
    unfold round_double
    simp only [excess_bits_small _ h, hs, Nat.max_self, pow_zero, Nat.div_one, Nat.mod_one,
      Nat.cast_zero, add_zero, Int.toNat_zero, neg_zero, if_neg hc, if_neg hlt]
    rw [if_pos (le_refl _), mul_one]
    congr 1
    exact Int.sign_mul_natAbs x
  · have hx : x = 2 ^ 53 ∨ x = -(2 ^ 53) := by
      rcases Int.natAbs_eq x with hx | hx
      · left; rw [hx, h]; norm_num
      · right; rw [hx, h]; norm_num
    rcases hx with hx | hx <;> subst hx <;> decide

/-- Adding the increment 1 to an integer score of magnitude below 2^53 is
exact. -/
theorem add_one_exact (n : Int) (h : n.natAbs < 2 ^ 53) :
    Score.add (.int n) (round_double 1 0) = some (.int (n + 1)) := by
  have h1 : round_double 1 0 = .int 1 := by decide
  have hn : (n + 1).natAbs ≤ 2 ^ 53 := by omega
  rw [h1]
  simp only [Score.add, Score.dyadic, min_self, sub_self, Int.toNat_zero, pow_zero, mul_one]
  rw [round_double_int _ hn]

/-- C8, as stated, fails.  In a store whose key `1.1.1.1:detected` holds a
string, `increment_rule_count` changes nothing, and the rule has no count
afterwards.  In a store whose trigger set holds the rule with the count 2^53,
the count is 2^53 afterwards, because the sum 2^53 + 1 is rounded to a
double; a count of infinity stays as it is too. -/
theorem increment_rule_count_not_a_sorted_set :
    increment_rule_count (Store.empty.put "1.1.1.1:detected" ⟨.str "x", none⟩) "1.1.1.1"
        "950001" ("1.1.1.1" ++ ":detected") = some ⟨.str "x", none⟩ ∧
      trigger_count
        (increment_rule_count (Store.empty.put "1.1.1.1:detected" ⟨.str "x", none⟩) "1.1.1.1"
          "950001") "1.1.1.1" "950001" = none ∧
      trigger_count
        (increment_rule_count
          (Store.empty.put "1.1.1.1:detected"
            ⟨.zset [("950001", .int 9007199254740992)], none⟩) "1.1.1.1" "950001")
        "1.1.1.1" "950001" = some (.int 9007199254740992) ∧
      trigger_count
        (increment_rule_count
          (Store.empty.put "1.1.1.1:detected" ⟨.zset [("950001", .inf false)], none⟩)
          "1.1.1.1" "950001")
        "1.1.1.1" "950001" = some (.inf false) := by
  refine ⟨by decide, by decide, by decide, by decide⟩

/-- C8 (amended): for every store state in which the key `actor:detected` is
absent or holds a sorted set, and in which the rule is absent from the set
(`n = 0`) or has an integer count `n` of magnitude below 2^53, every actor and
rule: `increment_rule_count` raises the trigger count of the rule to exactly
`n + 1`, creating it with count 1 when it was absent, and leaves the count of
every other rule of the actor unchanged; on an actor without trigger set the
result is the set with the one member `rule`, of count 1. -/
theorem increment_rule_count_adds_one (ctx : Store) (actor rule : String) (n : Int)
    (h : ctx (actor ++ ":detected") = none ∨
      ∃ z ttl, ctx (actor ++ ":detected") = some ⟨.zset z, ttl⟩)
    (hn : (trigger_count ctx actor rule = none ∧ n = 0) ∨
      trigger_count ctx actor rule = some (.int n))
    (hb : n.natAbs < 2 ^ 53) :
    trigger_count (increment_rule_count ctx actor rule) actor rule = some (.int (n + 1)) ∧
      (∀ other, other ≠ rule →
        trigger_count (increment_rule_count ctx actor rule) actor other =
          trigger_count ctx actor other) ∧
      (ctx (actor ++ ":detected") = none →
        increment_rule_count ctx actor rule (actor ++ ":detected") =
          some ⟨.zset [(rule, .int 1)], none⟩) := by
  have hadd : Score.add ((trigger_count ctx actor rule).getD (.int 0)) (round_double 1 0) =
      some (.int (n + 1)) := by
    rcases hn with ⟨h0, hz⟩ | hs
    · subst hz
      rw [h0]
      decide
    · rw [hs]
      exact add_one_exact n hb
  rcases h with h | ⟨z, ttl, h⟩
  · have h1 : round_double 1 0 = .int 1 := by decide
    have hs : increment_rule_count ctx actor rule (actor ++ ":detected") =
        some ⟨.zset [(rule, .int 1)], none⟩ := by
      simp [increment_rule_count, redisCommand, h, Store.put_same, h1]
    have hc : trigger_count ctx actor rule = none := by simp [trigger_count, h]
    have hz : n = 0 := by
      rcases hn with ⟨_, hz⟩ | hs
      · exact hz
      · rw [hc] at hs
        cases hs
    subst hz
    refine ⟨?_, ?_, fun _ => hs⟩
    · simp [trigger_count, hs, zset_score]
    · intro other ho
      simp [trigger_count, hs, h, zset_score, Ne.symm ho]
  · have hc : trigger_count ctx actor rule = zset_score z rule := by simp [trigger_count, h]
    rw [hc] at hadd
    have hs : increment_rule_count ctx actor rule (actor ++ ":detected") =
        some ⟨.zset (zset_put z rule (.int (n + 1))), ttl⟩ := by
      simp only [increment_rule_count, redisCommand, h, hadd]
      exact Store.put_same _ _ _
    refine ⟨?_, ?_, ?_⟩
    · simp [trigger_count, hs, zset_score_put_same]
    · intro other ho
      simp [trigger_count, hs, h, zset_score_put_other _ _ _ _ ho]
    · intro hnone
      rw [h] at hnone
      cases hnone

/-- Witness for C8 (amended): the test of the repository, one call in the
empty store, and a second call that raises the count to 2. -/
theorem increment_rule_count_adds_one_witness :
    increment_rule_count Store.empty "1.1.1.1" "950001" ("1.1.1.1" ++ ":detected") =
        some ⟨.zset [("950001", .int 1)], none⟩ ∧
      trigger_count
        (increment_rule_count (increment_rule_count Store.empty "1.1.1.1" "950001") "1.1.1.1"
          "950001") "1.1.1.1" "950001" = some (.int 2) :=
  ⟨(increment_rule_count_adds_one Store.empty "1.1.1.1" "950001" 0 (Or.inl rfl)
      (Or.inl ⟨rfl, rfl⟩) (by decide)).2.2 rfl,
    (increment_rule_count_adds_one (increment_rule_count Store.empty "1.1.1.1" "950001")
      "1.1.1.1" "950001" 1 (Or.inr ⟨[("950001", .int 1)], none, by decide⟩)
      (Or.inr (by decide)) (by decide)).1⟩

/-! ## The address resolver -/

/-- C9: `remote_address` returns NULL when both arguments are absent, the
direct address as it is when the forwarded header is absent, and otherwise the
first token of the header, from left to right, that is a valid IPv4 dotted
quad: the result is a valid token before which every token is invalid, and it
is NULL exactly when no token is valid.  Tokens such as `999.999.999.999` and
free text are not valid, and the calls of the tests give `8.8.8.8`. -/
theorem remote_address_first_valid_token :
    remote_address none none = none ∧
      (∀ direct, remote_address direct none = direct) ∧
      (∀ direct header ip, remote_address direct (some header) = some ip ↔
        valid_ipv4 ip = true ∧
          ∃ before after, header_tokens header = before ++ ip :: after ∧
            ∀ t ∈ before, valid_ipv4 t = false) ∧
      (∀ direct header, remote_address direct (some header) = none ↔
        ∀ t ∈ header_tokens header, valid_ipv4 t = false) ∧
      (∀ token, valid_ipv4 token = true ↔
        ∃ a b c d, split_at '.' token.data = [a, b, c, d] ∧
          (a ≠ [] ∧ (∀ x ∈ a, x.isDigit = true) ∧ decimal_value a ≤ 255) ∧
          (b ≠ [] ∧ (∀ x ∈ b, x.isDigit = true) ∧ decimal_value b ≤ 255) ∧
          (c ≠ [] ∧ (∀ x ∈ c, x.isDigit = true) ∧ decimal_value c ≤ 255) ∧
          (d ≠ [] ∧ (∀ x ∈ d, x.isDigit = true) ∧ decimal_value d ≤ 255)) ∧
      valid_ipv4 "8.8.8.8" = true ∧
      valid_ipv4 "255.255.255.255" = true ∧
      valid_ipv4 "999.999.999.999" = false ∧
      valid_ipv4 "256.1.1.1" = false ∧
      valid_ipv4 "1.2.3" = false ∧
      valid_ipv4 "1.2.3.4.5" = false ∧
      valid_ipv4 "1.2.3.4x" = false ∧
      valid_ipv4 "address" = false ∧
      remote_address (some "192.168.1.100") none = some "192.168.1.100" ∧
      remote_address (some "1.1.1.1") (some "8.8.8.8 12.34.56.78, 212.23.230.15") =
        some "8.8.8.8" ∧
      remote_address (some "1.1.1.1") (some "\\x5000 8.8.8.8, 12.23.45.67") = some "8.8.8.8" ∧
      remote_address (some "1.1.1.1")
        (some "This is not an IP address 8.8.8.8, 12.23.45.67") = some "8.8.8.8" ∧
      remote_address (some "1.1.1.1") (some "999.999.999.999, 8.8.8.8, 12.23.45.67") =
        some "8.8.8.8" ∧
      remote_address (some "1.1.1.1") (some "999.999.999.999, free text") = none := by
  have hoct : ∀ s : List Char, valid_octet s = true ↔
      (s ≠ [] ∧ (∀ x ∈ s, x.isDigit = true) ∧ decimal_value s ≤ 255) := by
    intro s
    cases s with
    | nil => simp [valid_octet]
    | cons c cs => simp [valid_octet, and_assoc]
  refine ⟨rfl, fun _ => rfl, ?_, ?_, ?_, by decide, by decide, by decide, by decide, by decide,
    by decide, by decide, by decide, by decide, by decide, by decide, by decide, by decide,
    by decide⟩
  · intro direct header ip
    simp only [remote_address, List.find?_eq_some]
    constructor
    · rintro ⟨hv, before, after, ht, hb⟩
      exact ⟨hv, before, after, ht, fun t htm => by simpa using hb t htm⟩
    · rintro ⟨hv, before, after, ht, hb⟩
      exact ⟨hv, before, after, ht, fun t htm => by simpa using hb t htm⟩
  · intro direct header
    simp [remote_address]
  · intro token
    unfold valid_ipv4
    constructor
    · intro h
      split at h
      · rename_i a b c d hs
        simp only [Bool.and_eq_true] at h
        exact ⟨a, b, c, d, hs, (hoct a).1 h.1.1.1, (hoct b).1 h.1.1.2, (hoct c).1 h.1.2,
          (hoct d).1 h.2⟩
      · cases h
    · rintro ⟨a, b, c, d, hs, ha, hb, hc, hd⟩
      rw [hs]
      simp only [Bool.and_eq_true]
      exact ⟨⟨⟨(hoct a).2 ha, (hoct b).2 hb⟩, (hoct c).2 hc⟩, (hoct d).2 hd⟩

end Repsheet
